import Mathlib

/-!
Verification model of `babyai/multienv/multienv.py`: the coordinator
(`MultiEnvHead`) / worker (`MultiEnv`) task-sampling protocol.

Channels are modelled as explicit FIFO queues (`List` of pending messages).
The non-blocking drain primitive `recv_conns` is modelled faithfully to the
Python loop: repeatedly poll all connections and read one message from each
ready connection until none is ready.  Results are tagged with the index of
the channel they were read from so provenance can be stated; the Python
function returns the payloads, i.e. the `Prod.snd` projection.
-/

/-- One polling round of `recv_conns`: read one message (the head) from each
non-empty queue, tagged with the queue's index, in index order.  Models one
iteration of `for r in wconns: data.append(r.recv())` where `wconns` are the
ready connections. -/
def drainStep {α : Type} : List (List α) → List (Nat × α)
  | [] => []
  | q :: qs =>
      (q.head?.map (fun m => ((0 : Nat), m))).toList ++
        (drainStep qs).map (fun p => (p.1 + 1, p.2))

/-- Total number of messages pending over all queues. -/
def sumLen {α : Type} (qs : List (List α)) : Nat := (qs.map List.length).sum

/-- Fuelled drain loop: keep polling (`drainStep`) and popping the read
messages until a poll yields nothing.  `fuel ≥ sumLen qs` suffices because
every round consumes at least one message. -/
def drainGo {α : Type} : Nat → List (List α) → List (Nat × α)
  | 0, _ => []
  | Nat.succ fuel, qs =>
      let s := drainStep qs
      if s.isEmpty then [] else s ++ drainGo fuel (qs.map List.tail)

/-- Model of `recv_conns(conns)`: drain every pending message from the given
queues without blocking, each message tagged with its channel index. -/
def recvConnsTagged {α : Type} (qs : List (List α)) : List (Nat × α) :=
  drainGo (sumLen qs) qs

/-- Model of `recv_conns(conns)` as the Python function returns it: the list
of drained message payloads. -/
def recv_conns {α : Type} (qs : List (List α)) : List α :=
  (recvConnsTagged qs).map Prod.snd

/-- The sub-sequence of drained messages that came from channel `j`. -/
def chan {α : Type} (j : Nat) (l : List (Nat × α)) : List α :=
  l.filterMap (fun p => if p.1 = j then some p.2 else none)

/-!
## Coordinator: `MultiEnvHead`

The state mirrors the Python object's attributes.  `returns` models the
dict `self.returns` whose keys are exactly `range(num_envs)`: it is a total
function on task ids, read only at ids below `num_envs`.
`synthesized_returns` models `self.synthesized_returns`, the partial mapping
handed to `compute_dist` (`none` = key absent).  `outboxes` models the
coordinator ends of the pipes (`self.locals`): one FIFO of sent
distributions per worker.  Incoming messages are supplied to `update_dist`
as an explicit argument: `recv_conns` over the worker channels returns the
pending `(env_id, return)` pairs in some interleaving, so quantifying over
the supplied list covers every possible arrival order. -/
structure MultiEnvHead : Type where
  num_menvs : Nat
  num_envs : Nat
  compute_dist : Option ((Nat → Option ℚ) → List ℚ)
  returns : Nat → List ℚ
  synthesized_returns : Nat → Option ℚ
  dist : List ℚ
  outboxes : List (List (List ℚ))

namespace MultiEnvHead

/-- Python list slice `l[-k:]` (the last `k` elements; the whole list when
`k = 0`, as `l[-0:]` is `l[0:]`). -/
def sliceLast {α : Type} (k : Nat) (l : List α) : List α :=
  if k = 0 then l else l.drop (l.length - k)

/-- `_trim_returns`: keep only the last `num_menvs` returns for each task id
(each key of the dict, i.e. each id below `num_envs`). -/
def trim_returns (h : MultiEnvHead) : MultiEnvHead :=
  { h with returns := fun id =>
      if id < h.num_envs then sliceLast h.num_menvs (h.returns id) else h.returns id }

/-- Append one received `(env_id, return)` pair to that task's history
(`self.returns[env_id].append(returnn)`).  Workers only send ids below
`num_envs`; Python would raise `KeyError` on any other id, so theorems about
reachable states assume ids are in range. -/
def append_return (h : MultiEnvHead) (p : Nat × ℚ) : MultiEnvHead :=
  { h with returns := fun id =>
      if id = p.1 then h.returns id ++ [p.2] else h.returns id }

/-- `_recv_returns`: append every drained `(env_id, return)` message, in
arrival order. -/
def recv_returns (h : MultiEnvHead) (data : List (Nat × ℚ)) : MultiEnvHead :=
  data.foldl append_return h

/-- `numpy.mean` of a list of rationals. -/
def mean (l : List ℚ) : ℚ := l.sum / (l.length : ℚ)

/-- `_synthesize_returns`: rebuild the mapping from scratch with the mean of
every non-empty history; keys with empty history are absent (`none`). -/
def synthesize_returns (h : MultiEnvHead) : MultiEnvHead :=
  { h with synthesized_returns := fun id =>
      if id < h.num_envs ∧ h.returns id ≠ [] then some (mean (h.returns id)) else none }

/-- `_send_dist`: append the current distribution to every worker's outbox. -/
def send_dist (h : MultiEnvHead) : MultiEnvHead :=
  { h with outboxes := h.outboxes.map (fun q => q ++ [h.dist]) }

/-- `self.dist = ...`: replace the distribution. -/
def set_dist (h : MultiEnvHead) (d : List ℚ) : MultiEnvHead :=
  { h with dist := d }

/-- `update_dist`, with the list of messages drained from the worker
channels passed explicitly (see the structure's doc comment): receive,
synthesize, trim, recompute the distribution when a `compute_dist` was
supplied, and broadcast. -/
def update_dist (h : MultiEnvHead) (data : List (Nat × ℚ)) : MultiEnvHead :=
  let h1 := recv_returns h data
  let h2 := synthesize_returns h1
  let h3 := trim_returns h2
  let h4 :=
    match h3.compute_dist with
    | none => h3
    | some f => set_dist h3 (f h3.synthesized_returns)
  send_dist h4

/-- `__init__(num_menvs, num_envs, compute_dist)`: histories start as
`[0] * num_menvs` per task id, the distribution starts uniform
(`numpy.ones(num_envs) / num_envs`), the pipes start empty, and one
`update_dist` cycle runs immediately; no worker exists yet, so that first
drain receives nothing. -/
def construct (num_menvs num_envs : Nat)
    (compute_dist : Option ((Nat → Option ℚ) → List ℚ)) : MultiEnvHead :=
  update_dist
    { num_menvs := num_menvs
      num_envs := num_envs
      compute_dist := compute_dist
      returns := fun id => if id < num_envs then List.replicate num_menvs 0 else []
      synthesized_returns := fun _ => none
      dist := List.replicate num_envs ((1 : ℚ) / (num_envs : ℚ))
      outboxes := List.replicate num_menvs [] } []

/-- A run: the coordinator state after a sequence of `update_dist` calls,
the `i`-th receiving the message list `datas[i]`. -/
def run_updates (h : MultiEnvHead) (datas : List (List (Nat × ℚ))) : MultiEnvHead :=
  datas.foldl update_dist h

end MultiEnvHead

/-!
## Worker: `MultiEnv`

The state mirrors the Python object's attributes: `num_envs = len(envs)`,
`returnn` (the accumulated return, `None` until the first `reset` finishes),
`env_id` (the active task id), `dist` (the most recently received
distribution; `none` before one has ever arrived — Python has no `self.dist`
attribute at all then, and reading it is undefined behaviour, modelled below
by `Option` failure), `inbox` (the worker end of the pipe to the head:
pending distribution messages, oldest first) and `outbox` (the
`(env_id, return)` messages this worker has sent to the head, oldest
first).  The private seeded generator `self.rng` together with
`rng.choice(range(num_envs), p=dist)` is modelled by a `sampler` function
from the weight vector to the chosen task id, passed to the operations that
sample.  The environment objects themselves are external collaborators: the
tuple a `step` of the active task produces is passed in as an argument. -/
structure MultiEnv : Type where
  num_envs : Nat
  returnn : Option ℚ
  env_id : Nat
  dist : Option (List ℚ)
  inbox : List (List ℚ)
  outbox : List (Nat × ℚ)
  deriving DecidableEq

namespace MultiEnv

/-- `_send_return`: if an accumulated return exists, send
`(env_id, returnn)` to the head. -/
def send_return (w : MultiEnv) : MultiEnv :=
  match w.returnn with
  | none => w
  | some r => { w with outbox := w.outbox ++ [(w.env_id, r)] }

/-- `_recv_dist`: drain the head connection with `recv_conns`; if anything
arrived, the last received message becomes the distribution (`data[-1]`). -/
def recv_dist (w : MultiEnv) : MultiEnv :=
  let data := recv_conns [w.inbox]
  match data.getLast? with
  | some d => { w with dist := some d, inbox := [] }
  | none => { w with inbox := [] }

/-- `_select_env`: refresh the distribution, then sample the new active task
id by weighted choice over the distribution.  Returns `none` when no
distribution has ever been received (Python: `self.dist` does not exist —
undefined behaviour the spec excludes). -/
def select_env (sampler : List ℚ → Nat) (w : MultiEnv) : Option MultiEnv :=
  let w1 := recv_dist w
  match w1.dist with
  | none => none
  | some d => some { w1 with env_id := sampler d }

/-- `reset`: report the previous episode's return (if any), zero the
accumulator, select a new task.  (The call then resets and returns the
selected task's first observation, which belongs to the external
environment collaborator.) -/
def reset (sampler : List ℚ → Nat) (w : MultiEnv) : Option MultiEnv :=
  let w1 := send_return w
  let w2 := { w1 with returnn := some 0 }
  select_env sampler w2

/-- `step(action)`: the active task produced `res = (obs, reward, done,
info)`; add the reward to the accumulated return and pass `res` through
unmodified.  Returns `none` when no episode has started (`self.returnn` is
`None`; Python raises `TypeError` on `None += reward`). -/
def step {Obs Info : Type} (w : MultiEnv) (res : Obs × ℚ × Bool × Info) :
    Option (MultiEnv × (Obs × ℚ × Bool × Info)) :=
  match w.returnn with
  | none => none
  | some r => some ({ w with returnn := some (r + res.2.1) }, res)

/-- `__init__(envs, head_conn, seed)`: no accumulated return yet, then an
immediate first `reset`.  `inbox0` is whatever the head has already sent on
this worker's channel (at least the head's construction-time broadcast, in
the intended interleaving).  The initial `env_id := 0` is a placeholder:
Python leaves `self.env_id` unset until `_select_env` assigns it, and
nothing reads it before then (`_send_return` sends nothing on the first
`reset`). -/
def construct (num_envs : Nat) (sampler : List ℚ → Nat)
    (inbox0 : List (List ℚ)) : Option MultiEnv :=
  reset sampler
    { num_envs := num_envs
      returnn := none
      env_id := 0
      dist := none
      inbox := inbox0
      outbox := [] }

end MultiEnv

/-- A worker state mid-way through a run, with an accumulated return and two
distributions pending on its channel; used to exercise `reset`. -/
def latestWinsW : MultiEnv :=
  { num_envs := 2, returnn := some 5, env_id := 0, dist := some [1, 0],
    inbox := [[(1 : ℚ), 0], [(0 : ℚ), 1]], outbox := [] }

/-- The state a freshly constructed worker reaches after its first
(construction-time) `reset`, with the head's initial broadcast pending. -/
def freshWorker : MultiEnv :=
  { num_envs := 1, returnn := some 0, env_id := 0, dist := some [1],
    inbox := [], outbox := [] }

/-- A worker at the start of an episode (accumulator zeroed). -/
def scenarioStart : MultiEnv :=
  { num_envs := 1, returnn := some 0, env_id := 0, dist := some [1],
    inbox := [], outbox := [] }

/-- Three `step` calls with rewards 1, 2, 3 and then a `reset`. -/
def scenarioRun : Option MultiEnv :=
  (MultiEnv.step scenarioStart (((), (1 : ℚ), false, ()) : Unit × ℚ × Bool × Unit)).bind fun p =>
    (MultiEnv.step p.1 (((), (2 : ℚ), false, ()) : Unit × ℚ × Bool × Unit)).bind fun p =>
      (MultiEnv.step p.1 (((), (3 : ℚ), true, ()) : Unit × ℚ × Bool × Unit)).bind fun p =>
        MultiEnv.reset (fun _ => 0) p.1

lemma chan_append {α : Type} (j : Nat) (a b : List (Nat × α)) :
    chan j (a ++ b) = chan j a ++ chan j b := by
  simp [chan, List.filterMap_append]

lemma chan_shift {α : Type} (j : Nat) (l : List (Nat × α)) :
    chan (j + 1) (l.map (fun p => (p.1 + 1, p.2))) = chan j l := by
  induction l with
  | nil => rfl
  | cons p l ih =>
      simp only [chan, List.map_cons, List.filterMap_cons] at *
      by_cases h : p.1 = j
      · simp [h, ih]
      · have h' : ¬ (p.1 + 1 = j + 1) := by omega
        simp [h, h', ih]

lemma chan_zero_shift {α : Type} (l : List (Nat × α)) :
    chan 0 (l.map (fun p => (p.1 + 1, p.2))) = [] := by
  induction l with
  | nil => rfl
  | cons p l ih => simp [chan, List.filterMap_cons, ih]

lemma chan_drainStep {α : Type} (qs : List (List α)) (j : Nat) :
    chan j (drainStep qs) = (qs.getD j []).head?.toList := by
  induction qs generalizing j with
  | nil => cases j <;> rfl
  | cons q qs ih =>
      cases j with
      | zero =>
          rw [drainStep, chan_append, chan_zero_shift]
          cases q <;> simp [chan, List.getD]
      | succ j =>
          rw [drainStep, chan_append, chan_shift, ih]
          cases q <;> simp [chan, List.getD]

lemma drainStep_eq_nil_iff {α : Type} (qs : List (List α)) :
    drainStep qs = [] ↔ ∀ q ∈ qs, q = [] := by
  induction qs with
  | nil => simp [drainStep]
  | cons q qs ih =>
      cases q with
      | nil => simp [drainStep, ih]
      | cons m t => simp [drainStep]

lemma sumLen_cons {α : Type} (q : List α) (qs : List (List α)) :
    sumLen (q :: qs) = q.length + sumLen qs := by
  simp [sumLen]

lemma len_drainStep_add {α : Type} (qs : List (List α)) :
    (drainStep qs).length + sumLen (qs.map List.tail) = sumLen qs := by
  induction qs with
  | nil => rfl
  | cons q qs ih =>
      cases q with
      | nil =>
          have hq : drainStep ([] :: qs) = (drainStep qs).map (fun p => (p.1 + 1, p.2)) := rfl
          rw [List.map_cons, hq, List.length_map, sumLen_cons, sumLen_cons]
          simpa using ih
      | cons m t =>
          have hq : drainStep ((m :: t) :: qs) =
              (0, m) :: (drainStep qs).map (fun p => (p.1 + 1, p.2)) := rfl
          rw [List.map_cons, hq, List.length_cons, List.length_map, List.tail_cons,
            sumLen_cons, sumLen_cons, List.length_cons]
          omega

lemma getD_map_tail {α : Type} (qs : List (List α)) (j : Nat) :
    (qs.map List.tail).getD j [] = (qs.getD j []).tail := by
  induction qs generalizing j with
  | nil => cases j <;> rfl
  | cons q qs ih =>
      cases j with
      | zero => rfl
      | succ j => simpa [List.getD_cons_succ] using ih j

lemma allNil_getD {α : Type} (qs : List (List α)) (h : ∀ q ∈ qs, q = [])
    (j : Nat) : qs.getD j [] = [] := by
  induction qs generalizing j with
  | nil => cases j <;> rfl
  | cons q qs ih =>
      cases j with
      | zero => exact h q (List.mem_cons_self _ _)
      | succ j =>
          simpa [List.getD] using ih (fun q hq => h q (List.mem_cons_of_mem _ hq)) j

lemma head_toList_append_tail {α : Type} (l : List α) :
    l.head?.toList ++ l.tail = l := by
  cases l <;> rfl

lemma chan_drainGo {α : Type} (fuel : Nat) (qs : List (List α))
    (hf : sumLen qs ≤ fuel) (j : Nat) :
    chan j (drainGo fuel qs) = qs.getD j [] := by
  induction fuel generalizing qs with
  | zero =>
      have hz : sumLen qs = 0 := Nat.le_zero.mp hf
      have hnil : ∀ q ∈ qs, q = [] := by
        intro q hq
        have : q.length = 0 := by
          by_contra hlen
          have h1 : 1 ≤ q.length := Nat.one_le_iff_ne_zero.mpr hlen
          have : 1 ≤ sumLen qs := by
            calc 1 ≤ q.length := h1
            _ ≤ sumLen qs := List.single_le_sum (by simp) _ (List.mem_map_of_mem _ hq)
          omega
        exact List.length_eq_zero.mp this
      rw [drainGo, allNil_getD qs hnil j]; rfl
  | succ fuel ih =>
      rw [drainGo]
      by_cases hs : (drainStep qs).isEmpty
      · have hnil : ∀ q ∈ qs, q = [] :=
          (drainStep_eq_nil_iff qs).mp (List.isEmpty_iff.mp hs)
        rw [allNil_getD qs hnil j]
        simp [hs, chan]
      · have hne : drainStep qs ≠ [] := fun h => hs (by simp [h])
        have hlen : 1 ≤ (drainStep qs).length :=
          Nat.one_le_iff_ne_zero.mpr (by simpa using hne)
        have hrec : sumLen (qs.map List.tail) ≤ fuel := by
          have := len_drainStep_add qs
          omega
        simp only [hs, if_false, Bool.false_eq_true]
        rw [chan_append, chan_drainStep, ih _ hrec, getD_map_tail,
          head_toList_append_tail]

lemma len_drainGo {α : Type} (fuel : Nat) (qs : List (List α))
    (hf : sumLen qs ≤ fuel) : (drainGo fuel qs).length = sumLen qs := by
  induction fuel generalizing qs with
  | zero =>
      have hz : sumLen qs = 0 := Nat.le_zero.mp hf
      rw [drainGo]; simpa using hz.symm
  | succ fuel ih =>
      rw [drainGo]
      by_cases hs : (drainStep qs).isEmpty
      · have h0 : (drainStep qs).length = 0 := by simp [List.isEmpty_iff.mp hs]
        have := len_drainStep_add qs
        have hz : sumLen (qs.map List.tail) = sumLen qs := by omega
        have hnil : ∀ q ∈ qs, q = [] :=
          (drainStep_eq_nil_iff qs).mp (List.isEmpty_iff.mp hs)
        have : sumLen qs = 0 := by
          simp only [sumLen, List.sum_eq_zero_iff]
          intro n hn
          obtain ⟨q, hq, rfl⟩ := List.mem_map.mp hn
          simp [hnil q hq]
        simp [hs, this]
      · have hne : drainStep qs ≠ [] := fun h => hs (by simp [h])
        have hlen : 1 ≤ (drainStep qs).length :=
          Nat.one_le_iff_ne_zero.mpr (by simpa using hne)
        have hadd := len_drainStep_add qs
        have hrec : sumLen (qs.map List.tail) ≤ fuel := by omega
        simp only [hs, if_false, Bool.false_eq_true, List.length_append]
        rw [ih _ hrec]
        omega

lemma drainGo_single {α : Type} (fuel : Nat) (q : List α)
    (hf : q.length ≤ fuel) :
    drainGo fuel [q] = q.map (fun m => ((0 : Nat), m)) := by
  induction fuel generalizing q with
  | zero =>
      have : q = [] := List.length_eq_zero.mp (Nat.le_zero.mp hf)
      subst this; rfl
  | succ fuel ih =>
      cases q with
      | nil => rfl
      | cons m t =>
          have hstep : drainStep [m :: t] = [((0 : Nat), m)] := rfl
          rw [drainGo]
          simp only [hstep, List.isEmpty_cons, if_false, Bool.false_eq_true,
            List.map_cons, List.tail_cons, List.map_nil, List.singleton_append]
          rw [ih t (by simpa using Nat.le_of_succ_le_succ hf)]

/-- Draining a single channel yields exactly its pending messages in order. -/
lemma recv_conns_single {α : Type} (q : List α) : recv_conns [q] = q := by
  have h : sumLen [q] = q.length := by simp [sumLen]
  rw [recv_conns, recvConnsTagged, h, drainGo_single q.length q (le_refl _)]
  simp

namespace MultiEnvHead

@[simp] lemma trim_returns_num_menvs (h : MultiEnvHead) :
    (trim_returns h).num_menvs = h.num_menvs := rfl
@[simp] lemma trim_returns_num_envs (h : MultiEnvHead) :
    (trim_returns h).num_envs = h.num_envs := rfl
@[simp] lemma trim_returns_compute_dist (h : MultiEnvHead) :
    (trim_returns h).compute_dist = h.compute_dist := rfl
@[simp] lemma trim_returns_synth (h : MultiEnvHead) :
    (trim_returns h).synthesized_returns = h.synthesized_returns := rfl
@[simp] lemma trim_returns_dist (h : MultiEnvHead) :
    (trim_returns h).dist = h.dist := rfl
@[simp] lemma trim_returns_outboxes (h : MultiEnvHead) :
    (trim_returns h).outboxes = h.outboxes := rfl

@[simp] lemma append_return_num_menvs (h : MultiEnvHead) (p : Nat × ℚ) :
    (append_return h p).num_menvs = h.num_menvs := rfl
@[simp] lemma append_return_num_envs (h : MultiEnvHead) (p : Nat × ℚ) :
    (append_return h p).num_envs = h.num_envs := rfl
@[simp] lemma append_return_compute_dist (h : MultiEnvHead) (p : Nat × ℚ) :
    (append_return h p).compute_dist = h.compute_dist := rfl
@[simp] lemma append_return_synth (h : MultiEnvHead) (p : Nat × ℚ) :
    (append_return h p).synthesized_returns = h.synthesized_returns := rfl
@[simp] lemma append_return_dist (h : MultiEnvHead) (p : Nat × ℚ) :
    (append_return h p).dist = h.dist := rfl
@[simp] lemma append_return_outboxes (h : MultiEnvHead) (p : Nat × ℚ) :
    (append_return h p).outboxes = h.outboxes := rfl

@[simp] lemma synthesize_returns_num_menvs (h : MultiEnvHead) :
    (synthesize_returns h).num_menvs = h.num_menvs := rfl
@[simp] lemma synthesize_returns_num_envs (h : MultiEnvHead) :
    (synthesize_returns h).num_envs = h.num_envs := rfl
@[simp] lemma synthesize_returns_compute_dist (h : MultiEnvHead) :
    (synthesize_returns h).compute_dist = h.compute_dist := rfl
@[simp] lemma synthesize_returns_returns (h : MultiEnvHead) :
    (synthesize_returns h).returns = h.returns := rfl
@[simp] lemma synthesize_returns_dist (h : MultiEnvHead) :
    (synthesize_returns h).dist = h.dist := rfl
@[simp] lemma synthesize_returns_outboxes (h : MultiEnvHead) :
    (synthesize_returns h).outboxes = h.outboxes := rfl

@[simp] lemma send_dist_num_menvs (h : MultiEnvHead) :
    (send_dist h).num_menvs = h.num_menvs := rfl
@[simp] lemma send_dist_num_envs (h : MultiEnvHead) :
    (send_dist h).num_envs = h.num_envs := rfl
@[simp] lemma send_dist_compute_dist (h : MultiEnvHead) :
    (send_dist h).compute_dist = h.compute_dist := rfl
@[simp] lemma send_dist_returns (h : MultiEnvHead) :
    (send_dist h).returns = h.returns := rfl
@[simp] lemma send_dist_synth (h : MultiEnvHead) :
    (send_dist h).synthesized_returns = h.synthesized_returns := rfl
@[simp] lemma send_dist_dist (h : MultiEnvHead) :
    (send_dist h).dist = h.dist := rfl

lemma recv_returns_nil (h : MultiEnvHead) : recv_returns h [] = h := rfl

lemma recv_returns_cons (h : MultiEnvHead) (p : Nat × ℚ) (data : List (Nat × ℚ)) :
    recv_returns h (p :: data) = recv_returns (append_return h p) data := rfl

@[simp] lemma recv_returns_num_menvs (h : MultiEnvHead) (data : List (Nat × ℚ)) :
    (recv_returns h data).num_menvs = h.num_menvs := by
  induction data generalizing h with
  | nil => rfl
  | cons p data ih => rw [recv_returns_cons]; exact ih _

@[simp] lemma recv_returns_num_envs (h : MultiEnvHead) (data : List (Nat × ℚ)) :
    (recv_returns h data).num_envs = h.num_envs := by
  induction data generalizing h with
  | nil => rfl
  | cons p data ih => rw [recv_returns_cons]; exact ih _

@[simp] lemma recv_returns_compute_dist (h : MultiEnvHead) (data : List (Nat × ℚ)) :
    (recv_returns h data).compute_dist = h.compute_dist := by
  induction data generalizing h with
  | nil => rfl
  | cons p data ih => rw [recv_returns_cons]; exact ih _

@[simp] lemma recv_returns_synth (h : MultiEnvHead) (data : List (Nat × ℚ)) :
    (recv_returns h data).synthesized_returns = h.synthesized_returns := by
  induction data generalizing h with
  | nil => rfl
  | cons p data ih => rw [recv_returns_cons]; exact ih _

@[simp] lemma recv_returns_dist (h : MultiEnvHead) (data : List (Nat × ℚ)) :
    (recv_returns h data).dist = h.dist := by
  induction data generalizing h with
  | nil => rfl
  | cons p data ih => rw [recv_returns_cons]; exact ih _

@[simp] lemma recv_returns_outboxes (h : MultiEnvHead) (data : List (Nat × ℚ)) :
    (recv_returns h data).outboxes = h.outboxes := by
  induction data generalizing h with
  | nil => rfl
  | cons p data ih => rw [recv_returns_cons]; exact ih _

lemma append_return_returns (h : MultiEnvHead) (p : Nat × ℚ) (id : Nat) :
    (append_return h p).returns id =
      h.returns id ++ (if id = p.1 then [p.2] else []) := by
  by_cases hc : id = p.1 <;> simp [append_return, hc]

/-- Receiving only ever appends to a task's history. -/
lemma recv_returns_returns_ext (h : MultiEnvHead) (data : List (Nat × ℚ)) (id : Nat) :
    ∃ s, (recv_returns h data).returns id = h.returns id ++ s := by
  induction data generalizing h with
  | nil => exact ⟨[], by simp [recv_returns_nil]⟩
  | cons p data ih =>
      obtain ⟨s, hs⟩ := ih (append_return h p)
      rw [recv_returns_cons, hs, append_return_returns, List.append_assoc]
      exact ⟨_, rfl⟩

lemma sliceLast_length_le {α : Type} (k : Nat) (l : List α) (hk : 1 ≤ k) :
    (sliceLast k l).length ≤ k := by
  rw [sliceLast, if_neg (by omega)]
  rw [List.length_drop]
  omega

lemma sliceLast_ne_nil {α : Type} (k : Nat) (l : List α) (hk : 1 ≤ k)
    (hl : l ≠ []) : sliceLast k l ≠ [] := by
  have hlen : 1 ≤ l.length := List.length_pos.mpr hl
  rw [sliceLast, if_neg (by omega)]
  intro hcon
  have := congrArg List.length hcon
  rw [List.length_drop] at this
  simp at this
  omega

lemma sliceLast_replicate (m : Nat) :
    sliceLast m (List.replicate m (0 : ℚ)) = List.replicate m 0 := by
  by_cases hm : m = 0
  · rw [sliceLast, if_pos hm]
  · rw [sliceLast, if_neg hm, List.length_replicate, Nat.sub_self, List.drop_zero]

end MultiEnvHead

namespace MultiEnvHead

@[simp] lemma set_dist_num_menvs (h : MultiEnvHead) (d : List ℚ) :
    (set_dist h d).num_menvs = h.num_menvs := rfl
@[simp] lemma set_dist_num_envs (h : MultiEnvHead) (d : List ℚ) :
    (set_dist h d).num_envs = h.num_envs := rfl
@[simp] lemma set_dist_compute_dist (h : MultiEnvHead) (d : List ℚ) :
    (set_dist h d).compute_dist = h.compute_dist := rfl
@[simp] lemma set_dist_returns (h : MultiEnvHead) (d : List ℚ) :
    (set_dist h d).returns = h.returns := rfl
@[simp] lemma set_dist_synth (h : MultiEnvHead) (d : List ℚ) :
    (set_dist h d).synthesized_returns = h.synthesized_returns := rfl
@[simp] lemma set_dist_outboxes (h : MultiEnvHead) (d : List ℚ) :
    (set_dist h d).outboxes = h.outboxes := rfl
@[simp] lemma set_dist_dist (h : MultiEnvHead) (d : List ℚ) :
    (set_dist h d).dist = d := rfl

lemma trim_returns_returns (h : MultiEnvHead) (id : Nat) :
    (trim_returns h).returns id =
      if id < h.num_envs then sliceLast h.num_menvs (h.returns id)
      else h.returns id := rfl

lemma synthesize_returns_synth (h : MultiEnvHead) (id : Nat) :
    (synthesize_returns h).synthesized_returns id =
      if id < h.num_envs ∧ h.returns id ≠ [] then some (mean (h.returns id))
      else none := rfl

lemma send_dist_outboxes (h : MultiEnvHead) :
    (send_dist h).outboxes = h.outboxes.map (fun q => q ++ [h.dist]) := rfl

lemma update_dist_num_menvs (h : MultiEnvHead) (data : List (Nat × ℚ)) :
    (update_dist h data).num_menvs = h.num_menvs := by
  simp only [update_dist, trim_returns_compute_dist, synthesize_returns_compute_dist,
    recv_returns_compute_dist]
  cases hc : h.compute_dist <;> simp [hc]

lemma update_dist_num_envs (h : MultiEnvHead) (data : List (Nat × ℚ)) :
    (update_dist h data).num_envs = h.num_envs := by
  simp only [update_dist, trim_returns_compute_dist, synthesize_returns_compute_dist,
    recv_returns_compute_dist]
  cases hc : h.compute_dist <;> simp [hc]

lemma update_dist_compute_dist (h : MultiEnvHead) (data : List (Nat × ℚ)) :
    (update_dist h data).compute_dist = h.compute_dist := by
  simp only [update_dist, trim_returns_compute_dist, synthesize_returns_compute_dist,
    recv_returns_compute_dist]
  cases hc : h.compute_dist <;> simp [hc]

/-- The histories `update_dist` leaves behind: the received returns appended,
then trimmed. -/
lemma update_dist_returns (h : MultiEnvHead) (data : List (Nat × ℚ)) (id : Nat)
    (hid : id < h.num_envs) :
    (update_dist h data).returns id =
      sliceLast h.num_menvs ((recv_returns h data).returns id) := by
  simp only [update_dist, trim_returns_compute_dist, synthesize_returns_compute_dist,
    recv_returns_compute_dist]
  cases hc : h.compute_dist <;>
    simp [hc, trim_returns_returns, hid]

/-- The synthesized-returns mapping `update_dist` computes (and hands to
`compute_dist`): the one taken after receiving, before trimming. -/
lemma update_dist_synth (h : MultiEnvHead) (data : List (Nat × ℚ)) :
    (update_dist h data).synthesized_returns =
      (synthesize_returns (recv_returns h data)).synthesized_returns := by
  simp only [update_dist, trim_returns_compute_dist, synthesize_returns_compute_dist,
    recv_returns_compute_dist]
  cases hc : h.compute_dist <;> simp [hc]

lemma update_dist_dist_none (h : MultiEnvHead) (data : List (Nat × ℚ))
    (hc : h.compute_dist = none) : (update_dist h data).dist = h.dist := by
  simp only [update_dist, trim_returns_compute_dist, synthesize_returns_compute_dist,
    recv_returns_compute_dist, hc]
  simp

lemma update_dist_dist_some (h : MultiEnvHead) (data : List (Nat × ℚ))
    (f : (Nat → Option ℚ) → List ℚ) (hc : h.compute_dist = some f) :
    (update_dist h data).dist =
      f ((synthesize_returns (recv_returns h data)).synthesized_returns) := by
  simp only [update_dist, trim_returns_compute_dist, synthesize_returns_compute_dist,
    recv_returns_compute_dist, hc]
  simp

/-- `update_dist` ends with `_send_dist`: every worker outbox grows by
exactly one message, the (final) distribution. -/
lemma update_dist_outboxes (h : MultiEnvHead) (data : List (Nat × ℚ)) :
    (update_dist h data).outboxes =
      h.outboxes.map (fun q => q ++ [(update_dist h data).dist]) := by
  cases hc : h.compute_dist with
  | none =>
      rw [update_dist_dist_none h data hc]
      simp only [update_dist, trim_returns_compute_dist, synthesize_returns_compute_dist,
        recv_returns_compute_dist, hc]
      simp [send_dist_outboxes]
  | some f =>
      rw [update_dist_dist_some h data f hc]
      simp only [update_dist, trim_returns_compute_dist, synthesize_returns_compute_dist,
        recv_returns_compute_dist, hc]
      simp [send_dist_outboxes]

lemma run_updates_nil (h : MultiEnvHead) : run_updates h [] = h := rfl

lemma run_updates_cons (h : MultiEnvHead) (d : List (Nat × ℚ))
    (ds : List (List (Nat × ℚ))) :
    run_updates h (d :: ds) = run_updates (update_dist h d) ds := rfl

lemma construct_num_menvs (m n : Nat) (f : Option ((Nat → Option ℚ) → List ℚ)) :
    (construct m n f).num_menvs = m := by
  rw [construct, update_dist_num_menvs]

lemma construct_num_envs (m n : Nat) (f : Option ((Nat → Option ℚ) → List ℚ)) :
    (construct m n f).num_envs = n := by
  rw [construct, update_dist_num_envs]

lemma construct_compute_dist (m n : Nat) (f : Option ((Nat → Option ℚ) → List ℚ)) :
    (construct m n f).compute_dist = f := by
  rw [construct, update_dist_compute_dist]

/-- After construction each task id's history is still `[0] * num_menvs`:
nothing was received and trimming keeps the last `num_menvs` of the
`num_menvs` initial zeros. -/
lemma construct_returns (m n : Nat) (f : Option ((Nat → Option ℚ) → List ℚ))
    (id : Nat) (hid : id < n) :
    (construct m n f).returns id = List.replicate m 0 := by
  rw [construct, update_dist_returns _ _ _ (by simpa using hid), recv_returns_nil]
  simp only [hid, if_pos]
  exact sliceLast_replicate m

end MultiEnvHead

namespace MultiEnvHead

lemma run_updates_num_menvs (datas : List (List (Nat × ℚ))) (h : MultiEnvHead) :
    (run_updates h datas).num_menvs = h.num_menvs := by
  induction datas generalizing h with
  | nil => rfl
  | cons d ds ih => rw [run_updates_cons, ih, update_dist_num_menvs]

lemma run_updates_num_envs (datas : List (List (Nat × ℚ))) (h : MultiEnvHead) :
    (run_updates h datas).num_envs = h.num_envs := by
  induction datas generalizing h with
  | nil => rfl
  | cons d ds ih => rw [run_updates_cons, ih, update_dist_num_envs]

lemma run_updates_compute_dist (datas : List (List (Nat × ℚ))) (h : MultiEnvHead) :
    (run_updates h datas).compute_dist = h.compute_dist := by
  induction datas generalizing h with
  | nil => rfl
  | cons d ds ih => rw [run_updates_cons, ih, update_dist_compute_dist]

/-- One `update_dist` call bounds every valid task id's history by the
window `num_menvs`, whatever the history was before. -/
lemma update_dist_returns_length_le (h : MultiEnvHead) (data : List (Nat × ℚ))
    (id : Nat) (hm : 1 ≤ h.num_menvs) (hid : id < h.num_envs) :
    ((update_dist h data).returns id).length ≤ h.num_menvs := by
  rw [update_dist_returns h data id hid]
  exact sliceLast_length_le _ _ hm

/-- One `update_dist` call keeps a valid task id's history non-empty:
receiving only appends, and trimming a non-empty list to a window of at
least one element leaves it non-empty. -/
lemma update_dist_returns_ne_nil (h : MultiEnvHead) (data : List (Nat × ℚ))
    (id : Nat) (hm : 1 ≤ h.num_menvs) (hid : id < h.num_envs)
    (hne : h.returns id ≠ []) : (update_dist h data).returns id ≠ [] := by
  rw [update_dist_returns h data id hid]
  obtain ⟨s, hs⟩ := recv_returns_returns_ext h data id
  apply sliceLast_ne_nil _ _ hm
  rw [hs]
  intro hcon
  exact hne (List.append_eq_nil.mp hcon).1

/-- If a valid task id's history is non-empty going into `update_dist`, the
synthesized mapping that call computes has an entry for it. -/
lemma update_dist_synth_isSome (h : MultiEnvHead) (data : List (Nat × ℚ))
    (id : Nat) (hid : id < h.num_envs) (hne : h.returns id ≠ []) :
    ((update_dist h data).synthesized_returns id).isSome := by
  rw [update_dist_synth, synthesize_returns_synth]
  obtain ⟨s, hs⟩ := recv_returns_returns_ext h data id
  have hne' : (recv_returns h data).returns id ≠ [] := by
    rw [hs]
    intro hcon
    exact hne (List.append_eq_nil.mp hcon).1
  rw [if_pos ⟨by simpa using hid, hne'⟩]
  rfl

/-- The history bound is preserved across any run of `update_dist` calls. -/
lemma run_updates_returns_length_le (datas : List (List (Nat × ℚ)))
    (h : MultiEnvHead) (id : Nat) (hm : 1 ≤ h.num_menvs)
    (hid : id < h.num_envs)
    (hb : (h.returns id).length ≤ h.num_menvs) :
    ((run_updates h datas).returns id).length ≤ h.num_menvs := by
  induction datas generalizing h with
  | nil => exact hb
  | cons d ds ih =>
      rw [run_updates_cons]
      have h1 := ih (update_dist h d)
        (by rw [update_dist_num_menvs]; exact hm)
        (by rw [update_dist_num_envs]; exact hid)
        (by rw [update_dist_num_menvs]
            exact update_dist_returns_length_le h d id hm hid)
      rw [update_dist_num_menvs] at h1
      exact h1

/-- History non-emptiness and totality of the synthesized mapping are
preserved across any run of `update_dist` calls. -/
lemma run_updates_inv (datas : List (List (Nat × ℚ))) (h : MultiEnvHead)
    (id : Nat) (hm : 1 ≤ h.num_menvs) (hid : id < h.num_envs)
    (hne : h.returns id ≠ []) (hsome : (h.synthesized_returns id).isSome) :
    ((run_updates h datas).returns id ≠ []) ∧
      ((run_updates h datas).synthesized_returns id).isSome := by
  induction datas generalizing h with
  | nil => exact ⟨hne, hsome⟩
  | cons d ds ih =>
      rw [run_updates_cons]
      exact ih (update_dist h d)
        (by rw [update_dist_num_menvs]; exact hm)
        (by rw [update_dist_num_envs]; exact hid)
        (update_dist_returns_ne_nil h d id hm hid hne)
        (update_dist_synth_isSome h d id hid hne)

/-- Without a scoring function, no `update_dist` call ever changes the
distribution. -/
lemma run_updates_dist_of_none (datas : List (List (Nat × ℚ)))
    (h : MultiEnvHead) (hc : h.compute_dist = none) :
    (run_updates h datas).dist = h.dist := by
  induction datas generalizing h with
  | nil => rfl
  | cons d ds ih =>
      rw [run_updates_cons, ih _ (by rw [update_dist_compute_dist]; exact hc),
        update_dist_dist_none h d hc]

lemma construct_dist_of_none (m n : Nat) :
    (construct m n none).dist = List.replicate n ((1 : ℚ) / (n : ℚ)) := by
  rw [construct, update_dist_dist_none _ _ rfl]

end MultiEnvHead

namespace MultiEnv

@[simp] lemma send_return_num_envs (w : MultiEnv) :
    (send_return w).num_envs = w.num_envs := by
  cases h : w.returnn <;> simp [send_return, h]

@[simp] lemma send_return_returnn (w : MultiEnv) :
    (send_return w).returnn = w.returnn := by
  cases h : w.returnn <;> simp [send_return, h]

@[simp] lemma send_return_env_id (w : MultiEnv) :
    (send_return w).env_id = w.env_id := by
  cases h : w.returnn <;> simp [send_return, h]

@[simp] lemma send_return_dist (w : MultiEnv) :
    (send_return w).dist = w.dist := by
  cases h : w.returnn <;> simp [send_return, h]

@[simp] lemma send_return_inbox (w : MultiEnv) :
    (send_return w).inbox = w.inbox := by
  cases h : w.returnn <;> simp [send_return, h]

lemma send_return_outbox (w : MultiEnv) :
    (send_return w).outbox =
      w.outbox ++
        (match w.returnn with | none => [] | some r => [(w.env_id, r)]) := by
  cases h : w.returnn <;> simp [send_return, h]

/-- `_recv_dist` in terms of the channel contents: since draining the single
head connection returns exactly its pending messages in order, the last
pending message (if any) becomes the distribution and the channel is left
empty. -/
lemma recv_dist_spec (w : MultiEnv) :
    recv_dist w =
      match w.inbox.getLast? with
      | some d => { w with dist := some d, inbox := [] }
      | none => { w with inbox := [] } := by
  rw [recv_dist, recv_conns_single]

lemma recv_dist_outbox (w : MultiEnv) : (recv_dist w).outbox = w.outbox := by
  rw [recv_dist_spec]
  cases h : w.inbox.getLast? <;> simp

lemma recv_dist_returnn (w : MultiEnv) : (recv_dist w).returnn = w.returnn := by
  rw [recv_dist_spec]
  cases h : w.inbox.getLast? <;> simp

lemma reset_eq (sampler : List ℚ → Nat) (w : MultiEnv) :
    reset sampler w =
      match (recv_dist { send_return w with returnn := some 0 }).dist with
      | none => none
      | some d =>
          some { recv_dist { send_return w with returnn := some 0 } with
                   env_id := sampler d } := rfl

/-- Whenever `reset` succeeds, the messages it sent to the head are exactly
what `_send_return` sent. -/
lemma reset_outbox (sampler : List ℚ → Nat) (w w' : MultiEnv)
    (hr : reset sampler w = some w') : w'.outbox = (send_return w).outbox := by
  rw [reset_eq] at hr
  cases hd : (recv_dist { send_return w with returnn := some 0 }).dist with
  | none => rw [hd] at hr; cases hr
  | some d =>
      rw [hd] at hr
      have hw : w' = { recv_dist { send_return w with returnn := some 0 } with
                         env_id := sampler d } := (Option.some.inj hr).symm
      rw [hw]
      show (recv_dist { send_return w with returnn := some 0 }).outbox =
        (send_return w).outbox
      rw [recv_dist_outbox]

end MultiEnv

namespace MultiEnv

/-- Full characterization of `reset`: report the previous return, then the
newest pending distribution (if any) wins, otherwise the held distribution
is used; the sample is drawn from whichever is active; no distribution at
all is the unspecified-precondition case. -/
lemma reset_spec (sampler : List ℚ → Nat) (w : MultiEnv) :
    reset sampler w =
      match w.inbox.getLast? with
      | some d =>
          some { send_return w with
                   returnn := some 0, dist := some d, inbox := [],
                   env_id := sampler d }
      | none =>
          match w.dist with
          | some d =>
              some { send_return w with
                       returnn := some 0, dist := some d, inbox := [],
                       env_id := sampler d }
          | none => none := by
  obtain ⟨ne, rt, eid, ds, ib, ob⟩ := w
  cases rt <;> cases hd : ib.getLast? <;> cases ds <;>
    simp [reset, select_env, send_return, recv_dist_spec, hd]

end MultiEnv

lemma replicate_zero_ne_nil (m : Nat) (hm : 1 ≤ m) :
    List.replicate m (0 : ℚ) ≠ [] := by
  intro hcon
  have := congrArg List.length hcon
  simp at this
  omega

/-- C4: `recv_conns` drains exactly the pending messages without blocking:
the result has one entry per pending message (each exactly once), channel
`j` contributes exactly its own queue in its original order, and when
nothing is pending the result is empty. -/
theorem recv_conns_drains_exactly {α : Type} (qs : List (List α)) (j : Nat) :
    (recv_conns qs).length = sumLen qs ∧
    chan j (recvConnsTagged qs) = qs.getD j [] ∧
    ((∀ q ∈ qs, q = []) → recv_conns qs = []) := by
  refine ⟨?_, chan_drainGo _ _ (le_refl _) j, ?_⟩
  · rw [recv_conns, List.length_map]
    exact len_drainGo _ _ (le_refl _)
  · intro hnil
    have hz : sumLen qs = 0 := by
      simp only [sumLen, List.sum_eq_zero_iff]
      intro x hx
      obtain ⟨q, hq, rfl⟩ := List.mem_map.mp hx
      simp [hnil q hq]
    have hlen : (recv_conns qs).length = 0 := by
      rw [recv_conns, recvConnsTagged, List.length_map,
        len_drainGo _ _ (le_refl _), hz]
    exact List.eq_nil_of_length_eq_zero hlen

theorem recv_conns_drains_exactly_witness :
    chan 0 (recvConnsTagged [[(1 : ℚ), 2], [3]]) = [1, 2] ∧
    recv_conns ([[], []] : List (List ℚ)) = [] :=
  ⟨(recv_conns_drains_exactly [[(1 : ℚ), 2], [3]] 0).2.1,
   (recv_conns_drains_exactly ([[], []] : List (List ℚ)) 0).2.2 (by decide)⟩

/-- C1 (counterexample): immediately after `MultiEnvHead` construction with
one worker and one task, task 0's return history is `[0]` — a sequence of
one zero, not the empty sequence the claim states. -/
theorem head_construct_history_empty_cex :
    ¬ ((MultiEnvHead.construct 1 1 none).returns 0 = ([] : List ℚ)) := by
  rw [MultiEnvHead.construct_returns 1 1 none 0 (by decide)]
  decide

/-- C1 (amended): after construction with no scoring function, every task
id's return history is `[0] * num_menvs` (a sequence of `num_menvs` zeroes,
seeded so that the synthesized mapping is total), and the distribution is
the uniform distribution over the `num_envs` task ids. -/
theorem head_construct_state (m n id : Nat) (hid : id < n) :
    (MultiEnvHead.construct m n none).returns id = List.replicate m 0 ∧
    (MultiEnvHead.construct m n none).dist =
      List.replicate n ((1 : ℚ) / (n : ℚ)) :=
  ⟨MultiEnvHead.construct_returns m n none id hid,
   MultiEnvHead.construct_dist_of_none m n⟩

theorem head_construct_state_witness :
    (MultiEnvHead.construct 2 3 none).returns 1 = List.replicate 2 0 ∧
    (MultiEnvHead.construct 2 3 none).dist =
      List.replicate 3 ((1 : ℚ) / (3 : ℚ)) :=
  head_construct_state 2 3 1 (by decide)

/-- C2: in every reachable coordinator state — construction with at least
one worker followed by any number of `update_dist` calls receiving any
in-range messages — every task id's history has length at most
`W = num_menvs`. -/
theorem head_history_bounded (m n : Nat)
    (f : Option ((Nat → Option ℚ) → List ℚ)) (datas : List (List (Nat × ℚ)))
    (id : Nat) (hm : 1 ≤ m) (hid : id < n)
    (hvalid : ∀ d ∈ datas, ∀ p ∈ d, p.1 < n) :
    ((MultiEnvHead.run_updates (MultiEnvHead.construct m n f) datas).returns
        id).length ≤ m := by
  have h1 : (MultiEnvHead.construct m n f).num_menvs = m :=
    MultiEnvHead.construct_num_menvs m n f
  have h2 : (MultiEnvHead.construct m n f).num_envs = n :=
    MultiEnvHead.construct_num_envs m n f
  have hb := MultiEnvHead.run_updates_returns_length_le datas
    (MultiEnvHead.construct m n f) id (by rw [h1]; exact hm)
    (by rw [h2]; exact hid)
    (by rw [MultiEnvHead.construct_returns m n f id hid, h1]; simp)
  rw [h1] at hb
  exact hb

theorem head_history_bounded_witness :
    ((MultiEnvHead.run_updates (MultiEnvHead.construct 2 2 none)
        [[((0 : Nat), (5 : ℚ))],
         [((0 : Nat), (7 : ℚ)), ((1 : Nat), (3 : ℚ))]]).returns 0).length ≤ 2 :=
  head_history_bounded 2 2 none
    [[((0 : Nat), (5 : ℚ))], [((0 : Nat), (7 : ℚ)), ((1 : Nat), (3 : ℚ))]] 0
    (by decide) (by decide) (by decide)

/-- C10: with at least one worker, every task id's history is non-empty in
every reachable coordinator state (the `[0] * num_menvs` seeding guarantees
this and trimming to a window of `num_menvs ≥ 1` preserves it), so the
synthesized-returns mapping recorded by the latest `update_dist` call —
including the one run at construction (`datas = []`) — has an entry for
every task id below `num_envs`: it is never a partial mapping. -/
theorem head_synth_total (m n : Nat)
    (f : Option ((Nat → Option ℚ) → List ℚ)) (datas : List (List (Nat × ℚ)))
    (id : Nat) (hm : 1 ≤ m) (hid : id < n)
    (hvalid : ∀ d ∈ datas, ∀ p ∈ d, p.1 < n) :
    ((MultiEnvHead.run_updates (MultiEnvHead.construct m n f) datas).returns
        id ≠ []) ∧
    ((MultiEnvHead.run_updates (MultiEnvHead.construct m n f)
        datas).synthesized_returns id).isSome := by
  apply MultiEnvHead.run_updates_inv datas _ id
  · rw [MultiEnvHead.construct_num_menvs]; exact hm
  · rw [MultiEnvHead.construct_num_envs]; exact hid
  · rw [MultiEnvHead.construct_returns m n f id hid]
    exact replicate_zero_ne_nil m hm
  · rw [MultiEnvHead.construct]
    apply MultiEnvHead.update_dist_synth_isSome
    · simpa using hid
    · show (if id < n then List.replicate m (0 : ℚ) else []) ≠ []
      rw [if_pos hid]
      exact replicate_zero_ne_nil m hm

theorem head_synth_total_witness :
    ((MultiEnvHead.run_updates (MultiEnvHead.construct 1 2 none)
        [[((0 : Nat), (5 : ℚ))]]).returns 1 ≠ []) ∧
    ((MultiEnvHead.run_updates (MultiEnvHead.construct 1 2 none)
        [[((0 : Nat), (5 : ℚ))]]).synthesized_returns 1).isSome :=
  head_synth_total 1 2 none [[((0 : Nat), (5 : ℚ))]] 1
    (by decide) (by decide) (by decide)

/-- C6: a coordinator constructed without a scoring function never modifies
its distribution: after construction and any number of `update_dist` calls,
with any returns received, it is still the uniform distribution. -/
theorem head_no_score_dist_const (m n : Nat)
    (datas : List (List (Nat × ℚ))) :
    (MultiEnvHead.run_updates (MultiEnvHead.construct m n none) datas).dist =
      List.replicate n ((1 : ℚ) / (n : ℚ)) := by
  rw [MultiEnvHead.run_updates_dist_of_none datas _
    (MultiEnvHead.construct_compute_dist m n none),
    MultiEnvHead.construct_dist_of_none]

/-- C9: every `update_dist` call ends by sending the current (final)
distribution exactly once on every worker endpoint: each worker's outbox
grows by exactly that one message, whatever was received this cycle and
whether or not the distribution changed. -/
theorem update_dist_broadcasts_once (h : MultiEnvHead)
    (data : List (Nat × ℚ)) :
    (MultiEnvHead.update_dist h data).outboxes =
      h.outboxes.map (fun q => q ++ [(MultiEnvHead.update_dist h data).dist]) ∧
    (MultiEnvHead.update_dist h data).outboxes.length = h.outboxes.length := by
  refine ⟨MultiEnvHead.update_dist_outboxes h data, ?_⟩
  rw [MultiEnvHead.update_dist_outboxes h data, List.length_map]

/-- C5: the synthesized-returns mapping computed by an `update_dist` call
has, for every task id whose history is non-empty after appending the newly
received returns (and before trimming), exactly the arithmetic mean of that
history, and no entry for a task id with empty history nor for one outside
the task range. -/
theorem head_synthesized_mean_spec (h : MultiEnvHead)
    (data : List (Nat × ℚ)) (id : Nat) :
    (id < h.num_envs →
      (MultiEnvHead.update_dist h data).synthesized_returns id =
        (if (MultiEnvHead.recv_returns h data).returns id ≠ []
         then some (((MultiEnvHead.recv_returns h data).returns id).sum /
             (((MultiEnvHead.recv_returns h data).returns id).length : ℚ))
         else none)) ∧
    (h.num_envs ≤ id →
      (MultiEnvHead.update_dist h data).synthesized_returns id = none) := by
  constructor
  · intro hid
    rw [MultiEnvHead.update_dist_synth, MultiEnvHead.synthesize_returns_synth]
    by_cases hne : (MultiEnvHead.recv_returns h data).returns id ≠ []
    · rw [if_pos ⟨by simpa using hid, hne⟩, if_pos hne]
      rfl
    · rw [if_neg (fun hc => hne hc.2), if_neg hne]
  · intro hid
    rw [MultiEnvHead.update_dist_synth, MultiEnvHead.synthesize_returns_synth,
      if_neg]
    intro hc
    have := hc.1
    rw [MultiEnvHead.recv_returns_num_envs] at this
    omega

theorem head_synthesized_mean_spec_witness :
    (MultiEnvHead.update_dist (MultiEnvHead.construct 1 2 none)
        [((0 : Nat), (3 : ℚ))]).synthesized_returns 0 = some ((3 : ℚ) / 2) := by
  have h := (head_synthesized_mean_spec (MultiEnvHead.construct 1 2 none)
      [((0 : Nat), (3 : ℚ))] 0).1 (by decide)
  have hl : (MultiEnvHead.recv_returns (MultiEnvHead.construct 1 2 none)
      [((0 : Nat), (3 : ℚ))]).returns 0 = [(0 : ℚ), 3] := rfl
  rw [h, hl, if_pos (show ([(0 : ℚ), 3] : List ℚ) ≠ [] by simp)]
  norm_num

/-- C3: at a `reset`, when one or more distribution messages are pending
only the last-sent one becomes the active distribution — the earlier ones
are consumed and never applied — and the task sample is drawn with exactly
that newest distribution's weights; when none is pending, the previously
held distribution remains active and is the one sampled from. -/
theorem menv_reset_latest_wins (w : MultiEnv) (sampler : List ℚ → Nat) :
    (∀ d, w.inbox.getLast? = some d →
        MultiEnv.reset sampler w =
          some { MultiEnv.send_return w with
                   returnn := some 0, dist := some d, inbox := [],
                   env_id := sampler d }) ∧
    (w.inbox = [] → ∀ d, w.dist = some d →
        MultiEnv.reset sampler w =
          some { MultiEnv.send_return w with
                   returnn := some 0, dist := some d, inbox := [],
                   env_id := sampler d }) := by
  constructor
  · intro d hd
    rw [MultiEnv.reset_spec, hd]
  · intro hib d hdist
    rw [MultiEnv.reset_spec, hib]
    simp [hdist]

theorem menv_reset_latest_wins_witness :
    MultiEnv.reset (fun d => if d = [(0 : ℚ), 1] then 1 else 0) latestWinsW =
      some { MultiEnv.send_return latestWinsW with
               returnn := some 0, dist := some [(0 : ℚ), 1], inbox := [],
               env_id :=
                 (fun d => if d = [(0 : ℚ), 1] then 1 else 0) [(0 : ℚ), 1] } :=
  (menv_reset_latest_wins latestWinsW
    (fun d => if d = [(0 : ℚ), 1] then 1 else 0)).1 [(0 : ℚ), 1] (by decide)

/-- C7: a `reset` sends a `(task id, accumulated return)` message if and
only if an accumulated return exists; in particular a freshly constructed
worker, whose first `reset` runs during construction before any `step`,
sends nothing on that first call. -/
theorem menv_reset_send_iff_return (n : Nat) (sampler : List ℚ → Nat)
    (inbox0 : List (List ℚ)) :
    (∀ w', MultiEnv.construct n sampler inbox0 = some w' → w'.outbox = []) ∧
    (∀ (w w' : MultiEnv), MultiEnv.reset sampler w = some w' →
        w'.outbox = w.outbox ++
          (match w.returnn with | none => [] | some r => [(w.env_id, r)])) := by
  constructor
  · intro w' hw
    rw [MultiEnv.construct] at hw
    rw [MultiEnv.reset_outbox _ _ _ hw, MultiEnv.send_return_outbox]
    rfl
  · intro w w' hw
    rw [MultiEnv.reset_outbox _ _ _ hw, MultiEnv.send_return_outbox]

theorem menv_reset_send_iff_return_witness :
    freshWorker.outbox = ([] : List (Nat × ℚ)) :=
  (menv_reset_send_iff_return 1 (fun _ => 0) [[(1 : ℚ)]]).1 freshWorker
    (by decide)

/-- C8: `step` adds the reward the task produced to the accumulated return
and passes the `(obs, reward, done, info)` tuple through unmodified; over a
scripted episode with rewards 1, 2, 3 the next `reset` reports a return of
6. -/
theorem menv_step_accumulates :
    (∀ {Obs Info : Type} (w : MultiEnv) (r : ℚ) (res : Obs × ℚ × Bool × Info),
        w.returnn = some r →
        MultiEnv.step w res =
          some ({ w with returnn := some (r + res.2.1) }, res)) ∧
    scenarioRun.map MultiEnv.outbox = some [((0 : Nat), (6 : ℚ))] := by
  constructor
  · intro Obs Info w r res hr
    simp only [MultiEnv.step, hr]
  · have hrun : scenarioRun =
        some { num_envs := 1, returnn := some 0, env_id := 0,
               dist := some [1], inbox := [],
               outbox := [((0 : Nat), (0 : ℚ) + 1 + 2 + 3)] } := rfl
    rw [hrun]
    simp only [Option.map_some']
    norm_num

theorem menv_step_accumulates_witness :
    MultiEnv.step scenarioStart
        (((), (1 : ℚ), false, ()) : Unit × ℚ × Bool × Unit) =
      some ({ scenarioStart with returnn := some ((0 : ℚ) + 1) },
        ((), (1 : ℚ), false, ())) :=
  menv_step_accumulates.1 scenarioStart 0 _ rfl
